import Mathlib

/-!
# Verification of the RepoDocAI frontend core

A shallow embedding of the RepoDocAI frontend logic, translated from the
TypeScript/TSX source files:

* `AICodeReview` (review splitting, `parseSection` with its three regex
  patterns, score-card grid) — `frontend/src/components/AICodeReview.tsx`;
* `handleSubmit` — `frontend/src/app/page.tsx`;
* the status-polling loop — `frontend/src/app/generate/[taskId]/page.tsx`;
* placeholder rendering of optional bundle sections — same file plus
  `DocViewer.tsx`;
* `ComplexityDashboard` bar widths — `ComplexityDashboard.tsx`;
* `HealthScoreGauge` grade colors and arc offset — `HealthScoreGauge.tsx`;
* the HealthScorer grade thresholds (backend; modelled from the spec).

JavaScript strings are modelled as `List Char`; JS numbers appearing in
arithmetic (line counts, scores, π) are modelled as `ℚ` where division
occurs and as `Nat` where only integer parses occur.
-/

namespace RepoDocAI

/-! ## JS string primitives -/

/-- JS whitespace (the ASCII part relevant here): the characters removed by
`String.prototype.trim` and matched by the regex class `\s`. -/
def jsWS (c : Char) : Bool :=
  c = ' ' || c = '\t' || c = '\n' || c = '\r' || c = '\x0b' || c = '\x0c'

/-- `String.prototype.trim`: strip leading and trailing whitespace. -/
def jsTrim (l : List Char) : List Char :=
  ((l.dropWhile jsWS).reverse.dropWhile jsWS).reverse

/-- `pat` is an initial segment of the second argument. -/
def leadsWith : List Char → List Char → Bool
  | [], _ => true
  | _ :: _, [] => false
  | p :: ps, c :: cs => p = c && leadsWith ps cs

/-- `String.prototype.includes(pat)`: substring occurrence test. -/
def jsIncludes (pat : List Char) : List Char → Bool
  | [] => leadsWith pat []
  | c :: r => leadsWith pat (c :: r) || jsIncludes pat r

/-- `text.split("\n")`: split on the newline character, keeping empty parts. -/
def splitNl : List Char → List (List Char)
  | [] => [[]]
  | c :: r =>
    if c = '\n' then [] :: splitNl r
    else
      match splitNl r with
      | h :: t => (c :: h) :: t
      | [] => [[c]]

/-- Fuel-driven worker for `split` on a multi-character separator. -/
def splitTokAux (sep : List Char) : Nat → List Char → List Char → List (List Char)
  | 0, l, acc => [acc.reverse ++ l]
  | fuel + 1, l, acc =>
    if leadsWith sep l then
      acc.reverse :: splitTokAux sep fuel (l.drop sep.length) []
    else
      match l with
      | [] => [acc.reverse]
      | c :: r => splitTokAux sep fuel r (c :: acc)

/-- `String.prototype.split(sep)` for a fixed non-empty separator token,
keeping empty parts (JS semantics). -/
def splitTok (sep l : List Char) : List (List Char) :=
  splitTokAux sep (l.length + 1) l []

/-- JS `parseInt` restricted to the all-digit strings produced by a `\d+`
capture group. -/
def digitsToNat (ds : List Char) : Nat :=
  ds.foldl (fun n c => n * 10 + (c.toNat - '0'.toNat)) 0

/-! ## The three regex patterns of `parseSection` (AICodeReview.tsx)

The matchers below implement exact JS regex semantics (leftmost match,
lazy/greedy quantifiers with backtracking) specialised to the three
patterns of the source.  `.` matches any character except a line
terminator; `\s` is `jsWS`; `\d` is a decimal digit. -/

/-- The regex metacharacter `.`: any character except a line terminator. -/
def dotChar (c : Char) : Bool := !(c = '\n' || c = '\r')

/-- `(\d+)\s*\/\s*10` anchored at the start of `l`; returns the value of the
capture group.  The greedy `\d+` and `\s*` need no backtracking here: each
is followed by a literal (`/`, `1`) outside its own character class. -/
def fracAt (l : List Char) : Option Nat :=
  let ds := l.takeWhile Char.isDigit
  if ds.isEmpty then none
  else
    match (l.drop ds.length).dropWhile jsWS with
    | '/' :: r2 =>
      match r2.dropWhile jsWS with
      | '1' :: '0' :: _ => some (digitsToNat ds)
      | _ => none
    | _ => none

/-- `.*?(\d+)\s*\/\s*10` anchored at the start of `l`: the lazy `.*?` grows
one character at a time, so the first position whose suffix matches
`(\d+)\s*\/\s*10` wins; growth stops at a character `.` cannot match. -/
def lazyFrac : List Char → Option Nat
  | [] => fracAt []
  | c :: r =>
    match fracAt (c :: r) with
    | some n => some n
    | none => if dotChar c then lazyFrac r else none

/-- Case-insensitive literal `Score` at the start of the input (the `/i`
flag); returns the rest of the input. -/
def scoreLit : List Char → Option (List Char)
  | c1 :: c2 :: c3 :: c4 :: c5 :: rest =>
    if c1.toLower = 's' && c2.toLower = 'c' && c3.toLower = 'o'
        && c4.toLower = 'r' && c5.toLower = 'e' then some rest else none
  | _ => none

/-- `line.match(/Score.*?(\d+)\s*\/\s*10/i)`: leftmost match; at each start
position the whole pattern must match, else the start advances by one. -/
def scoreMatch : List Char → Option Nat
  | [] => none
  | c :: r =>
    match scoreLit (c :: r) with
    | some rest =>
      match lazyFrac rest with
      | some n => some n
      | none => scoreMatch r
    | none => scoreMatch r

/-- The lazy group `(.+?)` of `/\*\*(.+?)\*\*.*?(\d+)\s*\/\s*10/`, entered
after the opening `\*\*`: grow the capture one `.`-character at a time; at
each length check for the closing `\*\*` followed by a match of the rest.
`*` itself is a `.`-character, so a failed continuation lets the capture
grow across stars, exactly as JS backtracking does. -/
def starTitleGo : List Char → List Char → Option (List Char × Nat)
  | [], _ => none
  | c :: rest, acc =>
    if dotChar c then
      let acc2 := acc ++ [c]
      match rest with
      | '*' :: '*' :: r2 =>
        match lazyFrac r2 with
        | some n => some (acc2, n)
        | none => starTitleGo rest acc2
      | _ => starTitleGo rest acc2
    else none

/-- `line.match(/\*\*(.+?)\*\*.*?(\d+)\s*\/\s*10/)`: leftmost match over
start positions; returns (title capture, parsed score capture). -/
def titleScoreMatch : List Char → Option (List Char × Nat)
  | [] => none
  | [_] => none
  | c1 :: c2 :: rest =>
    if c1 = '*' && c2 = '*' then
      match starTitleGo rest [] with
      | some res => some res
      | none => titleScoreMatch (c2 :: rest)
    else titleScoreMatch (c2 :: rest)

/-- `\s*(.+)` with backtracking: try skipping `j` whitespace characters,
`j` counting down from the maximal run (greedy `\s*`), and take the maximal
run of `.`-characters as the greedy `(.+)`; it must be non-empty. -/
def wsTry (l : List Char) : Nat → Option (List Char)
  | 0 =>
    let cap := l.takeWhile dotChar
    if cap.isEmpty then none else some cap
  | j + 1 =>
    let cap := (l.drop (j + 1)).takeWhile dotChar
    if cap.isEmpty then wsTry l j else some cap

/-- `#+\s*(.+)` after the anchor: try consuming `k` hashes, `k` counting
down from the maximal run (greedy `#+`, minimum one), then `\s*(.+)`. -/
def hashTry (line : List Char) : Nat → Option (List Char)
  | 0 => none
  | k + 1 =>
    let rem := line.drop (k + 1)
    match wsTry rem (rem.takeWhile jsWS).length with
    | some cap => some cap
    | none => hashTry line k

/-- `line.match(/^#+\s*(.+)/)`: anchored at the start; returns the `(.+)`
capture. -/
def headingMatch (line : List Char) : Option (List Char) :=
  match line with
  | '#' :: _ => hashTry line (line.takeWhile (fun c => c = '#')).length
  | _ => none

/-- `heading.replace(/\*\*/g, "")`: remove every non-overlapping `**`,
scanning left to right. -/
def removeStars : List Char → List Char
  | '*' :: '*' :: r => removeStars r
  | c :: r => c :: removeStars r
  | [] => []

/-! ## `parseSection` and the AICodeReview pipeline -/

/-- The record returned by `parseSection`: `{ title, score, content }`,
with `score : number | null` modelled as `Option Nat`. -/
structure ParsedSection where
  title : List Char
  score : Option Nat
  content : List Char
  deriving Repr, DecidableEq

/-- The `for (const line of lines)` loop of `parseSection`, carrying the
mutable `title` and `score`.  A `titleMatch` sets both and breaks; a
`headingMatch` sets the title only under the guard `!title` (JS falsiness:
the title string is empty); a `scoreMatch` overwrites the score. -/
def parseLoop : List (List Char) → List Char → Option Nat → List Char × Option Nat
  | [], title, score => (title, score)
  | line :: rest, title, score =>
    match titleScoreMatch line with
    | some (t, n) => (t, some n)
    | none =>
      let title' :=
        match headingMatch line with
        | some h => if title.isEmpty then removeStars h else title
        | none => title
      let score' :=
        match scoreMatch line with
        | some n => some n
        | none => score
      parseLoop rest title' score'

/-- `parseSection` from `AICodeReview.tsx`: trim the text, split into
lines, run the matching loop with initial `title = "Review"`,
`score = null`, and return `{ title, score, content: text.trim() }`. -/
def parseSection (text : List Char) : ParsedSection :=
  let t := jsTrim text
  let r := parseLoop (splitNl t) "Review".data none
  ⟨r.1, r.2, t⟩

/-- The section delimiter token `"---REVIEW_BREAK---"`. -/
def reviewBreak : List Char := "---REVIEW_BREAK---".data

/-- `review.split("---REVIEW_BREAK---").filter((s) => s.trim())`: JS
`filter` keeps the parts whose trimmed form is truthy, i.e. non-empty. -/
def reviewSections (review : List Char) : List (List Char) :=
  (splitTok reviewBreak review).filter (fun s => !(jsTrim s).isEmpty)

/-- `const parsed = sections.map(parseSection)`. -/
def reviewParsed (review : List Char) : List ParsedSection :=
  (reviewSections review).map parseSection

/-- The score-card grid of `AICodeReview`: rendered only under the guard
`parsed.length > 1`, showing
`parsed.filter((p) => p.score !== null).slice(0, 5)`. -/
def scoreCards (parsed : List ParsedSection) : List ParsedSection :=
  if 1 < parsed.length then (parsed.filter (fun p => p.score.isSome)).take 5
  else []

/-! ## `handleSubmit` (page.tsx) -/

/-- The three ways `handleSubmit` can leave its synchronous part:
return silently (the `!repoUrl.trim()` guard, no error set, no request),
set the invalid-URL error and return, or issue the create request with
`JSON.stringify({ repo_url: repoUrl.trim() })`. -/
inductive SubmitOutcome where
  | silentReturn
  | invalidError (msg : List Char)
  | createRequest (repoUrlBody : List Char)
  deriving Repr, DecidableEq

/-- The error message set by the validation branch. -/
def invalidUrlMsg : List Char := "Please enter a valid GitHub repository URL".data

/-- The recognized host token of the basic validation. -/
def githubTok : List Char := "github.com".data

/-- The synchronous validation part of `handleSubmit`:
`if (!repoUrl.trim()) return;` then
`if (!repoUrl.includes("github.com")) { setError(...); return; }` and
otherwise the `fetch("/api/generate", ...)` request is issued. -/
def handleSubmit (repoUrl : List Char) : SubmitOutcome :=
  if (jsTrim repoUrl).isEmpty then SubmitOutcome.silentReturn
  else if !(jsIncludes githubTok repoUrl) then SubmitOutcome.invalidError invalidUrlMsg
  else SubmitOutcome.createRequest (jsTrim repoUrl)

/-- Whether the outcome set an error message. -/
def setsError : SubmitOutcome → Bool
  | SubmitOutcome.invalidError _ => true
  | _ => false

/-- Whether the outcome issued the create request. -/
def issuesCreate : SubmitOutcome → Bool
  | SubmitOutcome.createRequest _ => true
  | _ => false

/-! ## The status-polling loop (GeneratePage) -/

/-- The `Status` union type of the generate page. -/
inductive TaskPhase where
  | pending | cloning | analyzing | generating | complete | error
  deriving Repr, DecidableEq

/-- The terminal guard of the polling effect:
`status.status === "complete" || status.status === "error"`. -/
def isTerminal (s : TaskPhase) : Bool :=
  s = TaskPhase.complete || s = TaskPhase.error

/-- The statuses observed by the polling loop, starting from current status
`s`, when the backend would answer the successive requests with `rs`.  Each
tick: if the current status is terminal the effect returns without
scheduling a request (and a `complete` answer clears the interval);
otherwise one request is issued and its answer becomes the new status. -/
def pollTrace : TaskPhase → List TaskPhase → List TaskPhase
  | _, [] => []
  | s, r :: rs => if isTerminal s then [] else r :: pollTrace r rs

/-- No element of the list is followed by another element once it is
terminal. -/
def noStepFromTerminal : List TaskPhase → Bool
  | [] => true
  | [_] => true
  | a :: b :: r => !isTerminal a && noStepFromTerminal (b :: r)

/-! ## Optional-section rendering (GeneratePage, DocViewer) -/

/-- A `DocSection` of the bundle: `{ title, content, order }`. -/
structure DocSection where
  title : List Char
  content : List Char
  order : Int
  deriving Repr, DecidableEq

/-- The fields of the `GeneratedDocs` interface used by the tab renderers.
String fields that can be empty, `null` (`api_docs: string | null`) or
undefined (`full_markdown?: string`) are `Option`s, with `some []`
standing for the empty string. -/
structure GeneratedDocs where
  repo_name : List Char
  overview : List Char
  sections : List DocSection
  tech_stack : Option (List Char)
  setup_guide : Option (List Char)
  api_docs : Option (List Char)
  full_markdown : Option (List Char)
  contributing_md : Option (List Char)
  ai_code_review : Option (List Char)
  deriving Repr, DecidableEq

/-- JS `x || d` for an optional string `x`: `null`, `undefined` and the
empty string are falsy, so all three select the default `d`. -/
def jsOrElse (v : Option (List Char)) (d : List Char) : List Char :=
  match v with
  | some s => if s.isEmpty then d else s
  | none => d

/-- An optional string field that is empty or absent (falsy in JS). -/
def strMissing : Option (List Char) → Bool
  | none => true
  | some s => s.isEmpty

/-- The techstack tab: `docs.tech_stack || "No tech stack information generated."`. -/
def techStackView (d : GeneratedDocs) : List Char :=
  jsOrElse d.tech_stack "No tech stack information generated.".data

/-- The setup tab: `docs.setup_guide || "No setup guide generated."`. -/
def setupGuideView (d : GeneratedDocs) : List Char :=
  jsOrElse d.setup_guide "No setup guide generated.".data

/-- The api tab: `docs.api_docs || "No API documentation detected for this project."`. -/
def apiDocsView (d : GeneratedDocs) : List Char :=
  jsOrElse d.api_docs "No API documentation detected for this project.".data

/-- The markdown tab: `docs.full_markdown || "Markdown not available."`. -/
def markdownView (d : GeneratedDocs) : List Char :=
  jsOrElse d.full_markdown "Markdown not available.".data

/-- `DocViewer`: `if (!content) return <p>No content available.</p>`, else
the rendered markdown of `content`; modelled as the displayed text. -/
def docViewerText (content : List Char) : List Char :=
  if content.isEmpty then "No content available.".data else content

/-! ## Health grade thresholds (backend HealthScorer) -/

/-- The grade letters of the `HealthReport` contract. -/
inductive HealthGrade where
  | APlus | A | B | C | D | F
  deriving Repr, DecidableEq

/-- Modelled from the spec: the backend HealthScorer is not under `src/`;
the spec fixes its grade thresholds as "≥95→A+, ≥85→A, ≥70→B, ≥55→C,
≥35→D, else F". -/
def healthGrade (s : Nat) : HealthGrade :=
  if 95 ≤ s then HealthGrade.APlus
  else if 85 ≤ s then HealthGrade.A
  else if 70 ≤ s then HealthGrade.B
  else if 55 ≤ s then HealthGrade.C
  else if 35 ≤ s then HealthGrade.D
  else HealthGrade.F

/-- The total order of the grade letters, F lowest. -/
def gradeRank : HealthGrade → Nat
  | HealthGrade.F => 0
  | HealthGrade.D => 1
  | HealthGrade.C => 2
  | HealthGrade.B => 3
  | HealthGrade.A => 4
  | HealthGrade.APlus => 5

/-- The six threshold intervals of the grade table, as booleans; the
thresholds are exhaustive and non-overlapping iff exactly one holds. -/
def thresholdBuckets (s : Nat) : List Bool :=
  [decide (95 ≤ s), decide (85 ≤ s ∧ s < 95), decide (70 ≤ s ∧ s < 85),
   decide (55 ≤ s ∧ s < 70), decide (35 ≤ s ∧ s < 55), decide (s < 35)]

/-! ## ComplexityDashboard bar widths -/

/-- An entry of `language_distribution`: `{ language, lines, percentage }`.
Line counts are JS numbers; the arithmetic is modelled over `ℚ`. -/
structure LangEntry where
  language : List Char
  lines : ℚ
  percentage : ℚ
  deriving DecidableEq

/-- `Math.max(...data.language_distribution.map((l) => l.lines), 1)`. -/
def maxLines (dist : List LangEntry) : ℚ :=
  (dist.map (fun l => l.lines)).foldr max 1

/-- The per-language bar width `(l.lines / maxLines) * 100` (a CSS
percentage). -/
def barWidth (dist : List LangEntry) (l : LangEntry) : ℚ :=
  l.lines / maxLines dist * 100

/-! ## HealthScoreGauge -/

/-- The `gradeColors` object lookup with the `|| "#888"` fallback:
a missing key yields `undefined`, which is falsy. -/
def gradeColor (g : List Char) : List Char :=
  if g = "A+".data then "#00ff88".data
  else if g = "A".data then "#22c55e".data
  else if g = "B".data then "#84cc16".data
  else if g = "C".data then "#eab308".data
  else if g = "D".data then "#f97316".data
  else if g = "F".data then "#ef4444".data
  else "#888".data

/-- `const circumference = 2 * Math.PI * 80`, with `Math.PI` (a float
constant, hence a rational) kept as a parameter. -/
def gaugeCircumference (pi : ℚ) : ℚ := 2 * pi * 80

/-- `const offset = circumference - (data.score / 100) * circumference`. -/
def gaugeOffset (pi score : ℚ) : ℚ :=
  gaugeCircumference pi - score / 100 * gaugeCircumference pi

/-! ## Supporting lemmas -/

/-- The trim of a string is empty exactly when every character is
whitespace. -/
theorem jsTrim_isEmpty_iff (l : List Char) :
    (jsTrim l).isEmpty = true ↔ ∀ c ∈ l, jsWS c = true := by
  unfold jsTrim
  rw [List.isEmpty_iff, List.reverse_eq_nil_iff, List.dropWhile_eq_nil_iff]
  constructor
  · intro h c hc
    have hsplit := List.takeWhile_append_dropWhile (p := jsWS) (l := l)
    rw [← hsplit] at hc
    rcases List.mem_append.mp hc with h1 | h1
    · exact List.mem_takeWhile_imp h1
    · exact h c (List.mem_reverse.mpr h1)
  · intro h c hc
    refine h c ?_
    have hsplit := List.takeWhile_append_dropWhile (p := jsWS) (l := l)
    rw [← hsplit]
    exact List.mem_append.mpr (Or.inr (List.mem_reverse.mp hc))

/-- If no line carries a title-with-fraction match nor a standalone score
match, the loop leaves the score untouched. -/
theorem parseLoop_score_invariant (lines : List (List Char))
    (h : ∀ l ∈ lines, titleScoreMatch l = none ∧ scoreMatch l = none) :
    ∀ (title : List Char) (score : Option Nat),
      (parseLoop lines title score).2 = score := by
  induction lines with
  | nil => intro title score; rfl
  | cons l rest ih =>
    intro title score
    obtain ⟨h1, h2⟩ := h l (List.mem_cons_self l rest)
    simp only [parseLoop, h1, h2]
    exact ih (fun x hx => h x (List.mem_cons_of_mem l hx)) _ _

/-- A fold of `max` over rationals with base `1` is at least `1`. -/
theorem one_le_foldr_max (xs : List ℚ) : 1 ≤ xs.foldr max 1 := by
  induction xs with
  | nil => exact le_refl 1
  | cons x r ih => exact le_trans ih (le_max_right x _)

/-- Every listed line count is at most `maxLines`. -/
theorem lines_le_maxLines (dist : List LangEntry) :
    ∀ l ∈ dist, l.lines ≤ maxLines dist := by
  induction dist with
  | nil => intro l hl; cases hl
  | cons e r ih =>
    intro l hl
    rcases List.mem_cons.mp hl with rfl | hl
    · exact le_max_left _ _
    · exact le_trans (ih l hl) (le_max_right _ _)

/-! ## The claims -/

/-- C7: the parsed review sections are exactly the non-whitespace-only
parts of the reply split on `"---REVIEW_BREAK---"`, in original order;
whitespace-only parts produce no section. -/
theorem reviewSections_split_spec (review : List Char) :
    reviewSections review
      = (splitTok reviewBreak review).filter (fun p => !(p.all jsWS)) := by
  unfold reviewSections
  apply List.filter_congr
  intro p _
  have := jsTrim_isEmpty_iff p
  rw [← List.all_eq_true] at this
  cases h1 : (jsTrim p).isEmpty <;> cases h2 : p.all jsWS <;> simp_all

/-- C1: if neither score pattern matches any line of a section, the parsed
score is `none` (absence, never coerced to `0`); and a section whose score
pattern yields `0` parses to `some 0`, which is distinct from absence. -/
theorem parseSection_score_optional (text : List Char)
    (h : (splitNl (jsTrim text)).all
        (fun l => (titleScoreMatch l).isNone && (scoreMatch l).isNone) = true) :
    (parseSection text).score = none
      ∧ (parseSection "Score: 0/10".data).score = some 0
      ∧ some 0 ≠ (none : Option Nat) := by
  refine ⟨?_, by decide, by decide⟩
  have h' : ∀ l ∈ splitNl (jsTrim text),
      titleScoreMatch l = none ∧ scoreMatch l = none := by
    intro l hl
    have hb := List.all_eq_true.mp h l hl
    simp only [Bool.and_eq_true] at hb
    exact ⟨Option.isNone_iff_eq_none.mp hb.1, Option.isNone_iff_eq_none.mp hb.2⟩
  exact parseLoop_score_invariant _ h' _ _

/-- Witness for C1 at the concrete section `"hello\nworld"`. -/
theorem parseSection_score_optional_witness :
    ((splitNl (jsTrim "hello\nworld".data)).all
        (fun l => (titleScoreMatch l).isNone && (scoreMatch l).isNone) = true)
      ∧ (parseSection "hello\nworld".data).score = none
      ∧ (parseSection "Score: 0/10".data).score = some 0 := by
  refine ⟨by decide, ?_⟩
  have := parseSection_score_optional "hello\nworld".data (by decide)
  exact ⟨this.1, this.2.1⟩

/-- C2: the code as written never takes the title from a markdown heading.
At the section `"# Security\nLooks good."` the heading pattern recognizes
the heading `Security` and the bold-fraction pattern does not match, yet
the parsed title stays the default `"Review"`: the guard `!title` of the
heading branch is always false because `title` is initialized to
`"Review"`, a truthy string. -/
theorem parseSection_heading_title_dead :
    headingMatch "# Security".data = some "Security".data
      ∧ titleScoreMatch "# Security".data = none
      ∧ (parseSection "# Security\nLooks good.".data).title = "Review".data
      ∧ "Review".data ≠ "Security".data := by
  decide

/-- C3 counterexample: the empty reference lacks the recognized host shape,
yet `handleSubmit` returns from the `!repoUrl.trim()` guard without setting
any error message (it does still issue no create request). -/
theorem handleSubmit_empty_no_error :
    jsIncludes githubTok [] = false
      ∧ handleSubmit [] = SubmitOutcome.silentReturn
      ∧ setsError (handleSubmit []) = false
      ∧ issuesCreate (handleSubmit []) = false := by
  decide

/-- C3 as amended: an input without the recognized host substring never
issues the create request, and when its trimmed form is non-empty the
handler sets the invalid-reference error message and returns. -/
theorem handleSubmit_invalid_reference (url : List Char)
    (h : jsIncludes githubTok url = false) :
    issuesCreate (handleSubmit url) = false
      ∧ ((jsTrim url).isEmpty = false →
          handleSubmit url = SubmitOutcome.invalidError invalidUrlMsg) := by
  constructor
  · by_cases he : (jsTrim url).isEmpty = true
    · simp [handleSubmit, issuesCreate, he]
    · simp [handleSubmit, issuesCreate, he, h]
  · intro hne
    simp [handleSubmit, hne, h]

/-- Witness for C3 at the concrete reference `"https://gitlab.com/a/b"`. -/
theorem handleSubmit_invalid_reference_witness :
    jsIncludes githubTok "https://gitlab.com/a/b".data = false
      ∧ issuesCreate (handleSubmit "https://gitlab.com/a/b".data) = false
      ∧ handleSubmit "https://gitlab.com/a/b".data
          = SubmitOutcome.invalidError invalidUrlMsg := by
  have h := handleSubmit_invalid_reference "https://gitlab.com/a/b".data (by decide)
  exact ⟨by decide, h.1, h.2 (by decide)⟩

/-- C4: `complete` and `error` are absorbing for the polling loop: a
terminal current status schedules no further status request whatever the
backend would answer, and the observed status sequence never continues
past a terminal element. -/
theorem pollTrace_terminal_absorbing (s : TaskPhase) (rs : List TaskPhase) :
    (isTerminal s = true → pollTrace s rs = [])
      ∧ noStepFromTerminal (s :: pollTrace s rs) = true := by
  constructor
  · intro h
    cases rs with
    | nil => rfl
    | cons r rs' => simp [pollTrace, h]
  · induction rs generalizing s with
    | nil => rfl
    | cons r rs' ih =>
      by_cases h : isTerminal s = true
      · simp [pollTrace, h, noStepFromTerminal]
      · have hs : isTerminal s = false := by
          cases hx : isTerminal s
          · rfl
          · exact absurd hx h
        have := ih r
        simp [pollTrace, hs, noStepFromTerminal, this]

/-- Witness for C4 with current status `complete` and a pending backend
answer. -/
theorem pollTrace_terminal_absorbing_witness :
    isTerminal TaskPhase.complete = true
      ∧ pollTrace TaskPhase.complete [TaskPhase.pending] = []
      ∧ noStepFromTerminal
          (TaskPhase.complete :: pollTrace TaskPhase.complete [TaskPhase.pending])
          = true := by
  have h := pollTrace_terminal_absorbing TaskPhase.complete [TaskPhase.pending]
  exact ⟨by decide, h.1 (by decide), h.2⟩

/-- C5: every optional bundle section that is empty or absent is rendered
as its explicit fixed placeholder text, independently of the others, and
rendering is total (each view below is a total function). -/
theorem bundle_missing_placeholders (d : GeneratedDocs) (c : List Char) :
    (strMissing d.tech_stack = true →
        techStackView d = "No tech stack information generated.".data)
      ∧ (strMissing d.setup_guide = true →
          setupGuideView d = "No setup guide generated.".data)
      ∧ (strMissing d.api_docs = true →
          apiDocsView d = "No API documentation detected for this project.".data)
      ∧ (strMissing d.full_markdown = true →
          markdownView d = "Markdown not available.".data)
      ∧ (c.isEmpty = true → docViewerText c = "No content available.".data) := by
  refine ⟨?_, ?_, ?_, ?_, ?_⟩
  · intro h
    cases hv : d.tech_stack with
    | none => simp [techStackView, jsOrElse, hv]
    | some s =>
      have hs : s.isEmpty = true := by simpa [strMissing, hv] using h
      simp [techStackView, jsOrElse, hv, hs]
  · intro h
    cases hv : d.setup_guide with
    | none => simp [setupGuideView, jsOrElse, hv]
    | some s =>
      have hs : s.isEmpty = true := by simpa [strMissing, hv] using h
      simp [setupGuideView, jsOrElse, hv, hs]
  · intro h
    cases hv : d.api_docs with
    | none => simp [apiDocsView, jsOrElse, hv]
    | some s =>
      have hs : s.isEmpty = true := by simpa [strMissing, hv] using h
      simp [apiDocsView, jsOrElse, hv, hs]
  · intro h
    cases hv : d.full_markdown with
    | none => simp [markdownView, jsOrElse, hv]
    | some s =>
      have hs : s.isEmpty = true := by simpa [strMissing, hv] using h
      simp [markdownView, jsOrElse, hv, hs]
  · intro h
    unfold docViewerText
    rw [if_pos h]

/-- Witness for C5: a bundle whose five optional pieces are all missing
renders the five placeholders. -/
theorem bundle_missing_placeholders_witness :
    techStackView ⟨"r".data, [], [], none, none, none, none, none, none⟩
        = "No tech stack information generated.".data
      ∧ setupGuideView ⟨"r".data, [], [], none, none, none, none, none, none⟩
          = "No setup guide generated.".data
      ∧ apiDocsView ⟨"r".data, [], [], none, none, none, none, none, none⟩
          = "No API documentation detected for this project.".data
      ∧ markdownView ⟨"r".data, [], [], none, none, none, none, none, none⟩
          = "Markdown not available.".data
      ∧ docViewerText [] = "No content available.".data := by
  have h := bundle_missing_placeholders
    ⟨"r".data, [], [], none, none, none, none, none, none⟩ []
  exact ⟨h.1 (by decide), h.2.1 (by decide), h.2.2.1 (by decide),
    h.2.2.2.1 (by decide), h.2.2.2.2 (by decide)⟩

/-- C6: (modelled from the spec, the HealthScorer is not under `src/`) the
grade function is monotone non-decreasing on scores in `[0,100]`, its six
threshold intervals are exhaustive and non-overlapping (exactly one bucket
holds), and its value is one of the six contract letters. -/
theorem healthGrade_monotone_total (s t : Nat)
    (hs : s ≤ 100) (ht : t ≤ 100) (hst : s ≤ t) :
    gradeRank (healthGrade s) ≤ gradeRank (healthGrade t)
      ∧ (thresholdBuckets s).count true = 1
      ∧ healthGrade s ∈ [HealthGrade.APlus, HealthGrade.A, HealthGrade.B,
          HealthGrade.C, HealthGrade.D, HealthGrade.F] := by
  refine ⟨?_, ?_, ?_⟩
  · unfold healthGrade
    split_ifs <;> first | decide | (exfalso; omega)
  · unfold thresholdBuckets
    simp only [List.count_cons, List.count_nil, beq_iff_eq, decide_eq_true_eq]
    split_ifs <;> omega
  · unfold healthGrade
    split_ifs <;> simp

/-- Witness for C6 at the scores `40 ≤ 90`. -/
theorem healthGrade_monotone_total_witness :
    (40 : Nat) ≤ 100 ∧ (90 : Nat) ≤ 100 ∧ (40 : Nat) ≤ 90
      ∧ gradeRank (healthGrade 40) ≤ gradeRank (healthGrade 90)
      ∧ (thresholdBuckets 40).count true = 1
      ∧ healthGrade 40 ∈ [HealthGrade.APlus, HealthGrade.A, HealthGrade.B,
          HealthGrade.C, HealthGrade.D, HealthGrade.F] := by
  have h := healthGrade_monotone_total 40 90 (by decide) (by decide) (by decide)
  exact ⟨by decide, by decide, by decide, h.1, h.2.1, h.2.2⟩

/-- C8: with non-negative line counts the bar-width denominator is at
least `1` (so positive, never a division by zero, also for the empty
distribution) and every bar width lies in `[0,100]`. -/
theorem barWidth_bounds (dist : List LangEntry)
    (h : ∀ l ∈ dist, 0 ≤ l.lines) :
    1 ≤ maxLines dist ∧ (0 : ℚ) < maxLines dist
      ∧ ∀ l ∈ dist, 0 ≤ barWidth dist l ∧ barWidth dist l ≤ 100 := by
  have hmax : 1 ≤ maxLines dist := one_le_foldr_max _
  have hpos : (0 : ℚ) < maxLines dist := lt_of_lt_of_le one_pos hmax
  refine ⟨hmax, hpos, ?_⟩
  intro l hl
  have hub : l.lines ≤ maxLines dist := lines_le_maxLines dist l hl
  have h0 : 0 ≤ l.lines := h l hl
  constructor
  · exact mul_nonneg (div_nonneg h0 (le_of_lt hpos)) (by norm_num)
  · have hq : l.lines / maxLines dist ≤ 1 := (div_le_one hpos).mpr hub
    calc l.lines / maxLines dist * 100
        ≤ 1 * 100 := mul_le_mul_of_nonneg_right hq (by norm_num)
      _ = 100 := one_mul 100

/-- Witness for C8 at a two-language distribution. -/
theorem barWidth_bounds_witness :
    1 ≤ maxLines [⟨"Python".data, 120, 60⟩, ⟨"TypeScript".data, 80, 40⟩]
      ∧ (0 : ℚ) < maxLines [⟨"Python".data, 120, 60⟩, ⟨"TypeScript".data, 80, 40⟩]
      ∧ 0 ≤ barWidth [⟨"Python".data, 120, 60⟩, ⟨"TypeScript".data, 80, 40⟩]
          ⟨"TypeScript".data, 80, 40⟩
      ∧ barWidth [⟨"Python".data, 120, 60⟩, ⟨"TypeScript".data, 80, 40⟩]
          ⟨"TypeScript".data, 80, 40⟩ ≤ 100 := by
  have h := barWidth_bounds
    [⟨"Python".data, 120, 60⟩, ⟨"TypeScript".data, 80, 40⟩] (by decide)
  have he := h.2.2 ⟨"TypeScript".data, 80, 40⟩ (by decide)
  exact ⟨h.1, h.2.1, he.1, he.2⟩

/-- C9: the grade-to-color lookup is total — each contract grade maps to
its fixed color and every other string maps to the fallback `"#888"` —
and the gauge arc offset satisfies
`offset = circumference * (1 - score / 100)`. -/
theorem gauge_color_total_offset (g : List Char) (pi score : ℚ)
    (hg : g ∉ ["A+".data, "A".data, "B".data, "C".data, "D".data, "F".data])
    (h0 : 0 ≤ score) (h1 : score ≤ 100) :
    gradeColor g = "#888".data
      ∧ gradeColor "A+".data = "#00ff88".data
      ∧ gradeColor "A".data = "#22c55e".data
      ∧ gradeColor "B".data = "#84cc16".data
      ∧ gradeColor "C".data = "#eab308".data
      ∧ gradeColor "D".data = "#f97316".data
      ∧ gradeColor "F".data = "#ef4444".data
      ∧ gaugeOffset pi score = gaugeCircumference pi * (1 - score / 100) := by
  refine ⟨?_, by decide, by decide, by decide, by decide, by decide, by decide, ?_⟩
  · simp only [List.mem_cons, List.not_mem_nil, or_false, not_or] at hg
    obtain ⟨n1, n2, n3, n4, n5, n6⟩ := hg
    unfold gradeColor
    rw [if_neg n1, if_neg n2, if_neg n3, if_neg n4, if_neg n5, if_neg n6]
  · unfold gaugeOffset gaugeCircumference
    ring

/-- Witness for C9 at the out-of-contract grade string `"Z"`. -/
theorem gauge_color_total_offset_witness :
    "Z".data ∉ ["A+".data, "A".data, "B".data, "C".data, "D".data, "F".data]
      ∧ gradeColor "Z".data = "#888".data
      ∧ gaugeOffset 3 50 = gaugeCircumference 3 * (1 - 50 / 100) := by
  have h := gauge_color_total_offset "Z".data 3 50 (by decide)
    (by norm_num) (by norm_num)
  exact ⟨by decide, h.1, h.2.2.2.2.2.2.2⟩

/-- C10: the score-card grid is empty unless more than one section was
parsed; every card has a present score; at most five cards are shown; and
the cards appear in section order (a sublist of the parsed sections). -/
theorem scoreCards_props (parsed : List ParsedSection) :
    (parsed.length ≤ 1 → scoreCards parsed = [])
      ∧ (∀ p ∈ scoreCards parsed, p.score.isSome = true)
      ∧ (scoreCards parsed).length ≤ 5
      ∧ (scoreCards parsed).Sublist parsed := by
  by_cases hlen : 1 < parsed.length
  · have hsc : scoreCards parsed
        = (parsed.filter (fun p => p.score.isSome)).take 5 := by
      unfold scoreCards
      rw [if_pos hlen]
    refine ⟨fun hle => absurd hlen (by omega), ?_, ?_, ?_⟩
    · intro p hp
      rw [hsc] at hp
      exact (List.mem_filter.mp (List.mem_of_mem_take hp)).2
    · rw [hsc, List.length_take]
      exact min_le_left _ _
    · rw [hsc]
      exact (List.take_sublist _ _).trans (List.filter_sublist _)
  · have hsc : scoreCards parsed = [] := by
      unfold scoreCards
      rw [if_neg hlen]
    refine ⟨fun _ => hsc, ?_, ?_, ?_⟩
    · intro p hp
      rw [hsc] at hp
      cases hp
    · rw [hsc]
      simp
    · rw [hsc]
      exact List.nil_sublist _

/-- Witness for C10: a single-section review shows no grid; a three-section
review with two scored sections shows in-order scored cards. -/
theorem scoreCards_props_witness :
    scoreCards [⟨"A".data, some 8, []⟩] = []
      ∧ (scoreCards [⟨"A".data, some 8, []⟩, ⟨"B".data, none, []⟩,
          ⟨"C".data, some 3, []⟩]).length ≤ 5
      ∧ (scoreCards [⟨"A".data, some 8, []⟩, ⟨"B".data, none, []⟩,
          ⟨"C".data, some 3, []⟩]).Sublist
          [⟨"A".data, some 8, []⟩, ⟨"B".data, none, []⟩, ⟨"C".data, some 3, []⟩]
      ∧ (⟨"A".data, some 8, []⟩ : ParsedSection).score.isSome = true := by
  have h1 := scoreCards_props [⟨"A".data, some 8, []⟩]
  have h3 := scoreCards_props
    [⟨"A".data, some 8, []⟩, ⟨"B".data, none, []⟩, ⟨"C".data, some 3, []⟩]
  exact ⟨h1.1 (by decide), h3.2.2.1, h3.2.2.2, h3.2.1 _ (by decide)⟩

end RepoDocAI
